import Mathlib

/-!
Verification of the SBOM graph-view logic of the Visfactant repository.

The repository ships three revisions of the same browser-side graph class
(`SbomGraph`): `src/unnamed/part_000`, `src/unnamed/part_001` and
`src/static/js/graph.js` (the latest).  The definitions below are shallow
embeddings of the relevant methods, translated directly from the JavaScript
source.  JavaScript strings are `String` (with `""` standing for a missing or
empty, hence falsy, field), JS arrays are `List`, JS objects used as maps are
association lists, and a link endpoint — which in the source may be a bare
identifier string, a hydrated node object, or `null`/`undefined` — is the sum
type `EndRef`.
-/

namespace Visfactant

/-- A link endpoint as it appears in a raw payload or a working link record:
a bare identifier string, an object reference carrying an optional `id`
field, or `null`/`undefined`. -/
inductive EndRef where
  | str : String → EndRef
  | obj : Option String → EndRef
  | nul : EndRef
deriving DecidableEq

/-- A component node.  Optional JS fields absent from a record are `""`,
`0`, `none` or `false` (the respective falsy defaults). -/
structure Node where
  id : String := ""
  name : String := ""
  display_name : String := ""
  type : String := ""
  sbom : String := ""
  shared_in : Option (List String) := none
  size : Nat := 0
  clusterType : String := ""
  componentCount : Nat := 0
  components : Option (List String) := none
  isCluster : Bool := false
deriving DecidableEq

/-- A dependency link record. -/
structure Link where
  source : EndRef
  target : EndRef
  sbom : String := ""
  type : String := ""
  sourceSbom : Option String := none
  targetSbom : Option String := none
deriving DecidableEq

/-- SBOM metadata entry of a payload (`data.sboms`). -/
structure SbomMeta where
  id : String := ""
  name : String := ""
deriving DecidableEq

/-- A raw payload handed to `updateData`. -/
structure Payload where
  nodes : List Node := []
  links : List Link := []
  sboms : List SbomMeta := []
deriving DecidableEq

/-- `typeof e === 'object' ? e?.id : e`, as an `Option` (`none` = falsy
`undefined`). -/
def resolveEnd : EndRef → Option String
  | .str s => some s
  | .obj o => o
  | .nul => none

/-- Endpoint is the given bare identifier string (JS `===` against a string
id; an object or null endpoint never compares equal to a string). -/
def endIsStr (e : EndRef) (i : String) : Bool := e = EndRef.str i

/-!  ## DataIngestion: `updateData` of the `part_000`/`part_001` revision -/

/-- Node deduplication loop of `updateData` (`part_000` lines 861-869,
`part_001` lines 257-265): keep a node iff its `id` is truthy and not seen
before; `seen` is the key set of the JS `uniqueNodes` object. -/
def dedupNodesAux : List Node → List String → List Node
  | [], _ => []
  | n :: ns, seen =>
    if n.id ≠ "" ∧ n.id ∉ seen then
      n :: dedupNodesAux ns (n.id :: seen)
    else
      dedupNodesAux ns seen

/-- `updateData` node validation: deduplicate by identifier, first
occurrence wins. -/
def dedupNodes (ns : List Node) : List Node := dedupNodesAux ns []

/-- Link validation loop of `updateData` (`part_000` lines 875-889): resolve
each endpoint to a bare id, keep the link only when both ids are truthy and
present in the surviving node id set, and rebuild the record with string
endpoints and a defaulted type tag. -/
def validateLinks (nodeIds : List String) (ls : List Link) : List Link :=
  ls.filterMap (fun l =>
    match resolveEnd l.source, resolveEnd l.target with
    | some s, some t =>
      if s ≠ "" ∧ t ≠ "" ∧ s ∈ nodeIds ∧ t ∈ nodeIds then
        some { source := .str s, target := .str t, sbom := l.sbom,
               type := if l.type = "" then "unknown" else l.type }
      else none
    | _, _ => none)

/-- The working node/link sets produced by the validating revision of
`updateData` (`part_000`/`part_001`). -/
def ingestV0 (data : Payload) : List Node × List Link :=
  let ns := dedupNodes data.nodes
  (ns, validateLinks (ns.map (·.id)) data.links)

/-!  ## SBOM color assignment -/

/-- The 10-color palette set up in the `SbomGraph` constructor
(`this.colorPalette`, all revisions, `graph.js` lines 47-58). -/
def colorPalette : List String :=
  ["#4285F4", "#EA4335", "#FBBC05", "#34A853", "#8F00FF",
   "#00FFFF", "#FF00FF", "#FF8C00", "#008080", "#800080"]

/-- The external `d3.schemeCategory10` palette used by the `graph.js`
revision of `updateData` (line 263). -/
def d3SchemeCategory10 : List String :=
  ["#1f77b4", "#ff7f0e", "#2ca02c", "#d62728", "#9467bd",
   "#8c564b", "#e377c2", "#7f7f7f", "#bcbd22", "#17becf"]

/-- Lookup in an association list modelling a JS object used as a map
(`this.sbomColors[k]`). -/
def lookupA (m : List (String × String)) (k : String) : Option String :=
  (m.find? (fun p => p.1 = k)).map (·.2)

/-- One step of the SBOM color/visibility bookkeeping loop of the
`part_000`/`part_001` revision of `updateData` (`part_000` lines 899-914,
`part_001` lines 300-315): for a node with a truthy, not yet colored `sbom`,
assign `colorPalette[Object.keys(sbomColors).length % palette.length]` and
add the SBOM to the visibility set. -/
def assignColorsStep (acc : List (String × String) × List String) (n : Node) :
    List (String × String) × List String :=
  if n.sbom ≠ "" then
    (if lookupA acc.1 n.sbom = none then
       acc.1 ++ [(n.sbom, colorPalette.getD (acc.1.length % colorPalette.length) "")]
     else acc.1,
     if n.sbom ∈ acc.2 then acc.2 else acc.2 ++ [n.sbom])
  else acc

/-- The color/visibility bookkeeping of one `updateData` call of the
`part_000`/`part_001` revision, over the validated node list. -/
def assignColorsNodes (acc : List (String × String) × List String)
    (ns : List Node) : List (String × String) × List String :=
  ns.foldl assignColorsStep acc

/-- Color map after a whole session of `updateData` calls of the
`part_000`/`part_001` revision, starting from the empty registration. -/
def colorsAfterSeq (payloads : List (List Node)) : List (String × String) :=
  (payloads.foldl (fun acc p => assignColorsNodes acc p) ([], [])).1

/-- SBOM color assignment of the `graph.js` revision of `updateData`
(lines 259-268): iterate over the payload metadata `data.sboms` with its
positional index and assign `d3.schemeCategory10[index % 10]` to each SBOM id
that has no color yet. -/
def assignColorsMetaAux (cs : List (String × String)) :
    List SbomMeta → Nat → List (String × String)
  | [], _ => cs
  | s :: ss, i =>
    assignColorsMetaAux
      (if lookupA cs s.id = none then
         cs ++ [(s.id, d3SchemeCategory10.getD (i % 10) "")]
       else cs) ss (i + 1)

/-- `graph.js` color assignment for one payload. -/
def assignColorsMeta (cs : List (String × String)) (sboms : List SbomMeta) :
    List (String × String) :=
  assignColorsMetaAux cs sboms 0

/-!  ## ClusterEngine: `_createClusteredGraph` of the `graph.js` revision -/

/-- First-occurrence deduplication, the order in which a JS object
accumulates fresh keys. -/
def firstDedupAux [DecidableEq α] : List α → List α → List α
  | [], _ => []
  | a :: l, seen =>
    if a ∈ seen then firstDedupAux l seen else a :: firstDedupAux l (a :: seen)

/-- First-occurrence deduplication of a list. -/
def firstDedup [DecidableEq α] (l : List α) : List α := firstDedupAux l []

/-- Nodes with a truthy `sbom` field, the ones entering `nodesBySbom`
(`graph.js` lines 897-905). -/
def truthySbomNodes (ns : List Node) : List Node := ns.filter (fun n => n.sbom ≠ "")

/-- The SBOM identifiers keying `nodesBySbom`. -/
def groupKeys (ns : List Node) : List String :=
  firstDedup ((truthySbomNodes ns).map (·.sbom))

/-- The node group of one SBOM identifier in `nodesBySbom`. -/
def sbomGroup (ns : List Node) (k : String) : List Node :=
  (truthySbomNodes ns).filter (fun n => n.sbom = k)

/-- The distinct SBOM identifiers under which a component identifier appears
(`componentSboms[id]`, `graph.js` lines 913-921; nodes with a falsy id or
sbom are skipped). -/
def componentSboms (ns : List Node) (cid : String) : List String :=
  firstDedup (((ns.filter (fun n => n.id = cid ∧ n.id ≠ "" ∧ n.sbom ≠ "")).map (·.sbom)))

/-- Membership in the `sharedComponents` set (`graph.js` lines 923-929):
the identifier appears under more than one SBOM. -/
def isShared (ns : List Node) (cid : String) : Bool :=
  2 ≤ (componentSboms ns cid).length

/-- `originalNodes.find(n => n.id === i)`: first node with the given id. -/
def findNode (ns : List Node) (i : String) : Option Node :=
  ns.find? (fun n => n.id = i)

/-- Membership in the `crossSbomComponents` set (`graph.js` lines 933-950):
the identifier is an endpoint of a link whose two endpoints resolve to
truthy ids whose first-matching nodes carry different `sbom` fields. -/
def isCrossSbom (ns : List Node) (ls : List Link) (cid : String) : Bool :=
  ls.any (fun l =>
    match resolveEnd l.source, resolveEnd l.target with
    | some s, some t =>
      if s ≠ "" ∧ t ≠ "" then
        match findNode ns s, findNode ns t with
        | some sn, some tn => sn.sbom ≠ tn.sbom ∧ (cid = s ∨ cid = t)
        | _, _ => false
      else false
    | _, _ => false)

/-- Number of original links incident to a node id (`graph.js` lines
977-981). -/
def linkDegree (ls : List Link) (nid : String) : Nat :=
  (ls.filter (fun l =>
    resolveEnd l.source = some nid ∨ resolveEnd l.target = some nid)).length

/-- The partition test of `_createClusteredGraph` (`graph.js` lines
971-991): a node of a clustered SBOM is kept individually iff it is shared,
cross-SBOM linked, or incident to more than 5 original links. -/
def isImportant (ns : List Node) (ls : List Link) (n : Node) : Bool :=
  isShared ns n.id || isCrossSbom ns ls n.id || decide (5 < linkDegree ls n.id)

/-- `node.type || 'unknown'`: the bucketing tag (`graph.js` line 1001). -/
def typeTag (n : Node) : String := if n.type = "" then "unknown" else n.type

/-- The synthetic cluster identifier `cluster-<sbomId>-<type>`
(`graph.js` line 1012). -/
def mkClusterId (sbomId ty : String) : String :=
  "cluster-" ++ sbomId ++ "-" ++ ty

/-- The synthetic cluster node for one type bucket (`graph.js` lines
1013-1024). -/
def mkClusterNode (sbomId ty : String) (bucket : List Node) : Node :=
  { id := mkClusterId sbomId ty,
    name := toString bucket.length ++ " " ++ ty ++ " components",
    display_name := toString bucket.length ++ " " ++ ty ++ " components",
    type := "cluster",
    sbom := sbomId,
    clusterType := ty,
    size := (bucket.map (·.size)).sum,
    componentCount := bucket.length,
    components := some (bucket.map (·.id)),
    isCluster := true }

/-- `String.prototype.split` on a one-character separator, on the character
list of the string: `"a--b".split('-') = ["a","","b"]`. -/
def splitOnChar (c : Char) : List Char → List (List Char)
  | [] => [[]]
  | x :: xs =>
    if x = c then [] :: splitOnChar c xs
    else
      match splitOnChar c xs with
      | [] => [[x]]
      | g :: gs => (x :: g) :: gs

/-- `clusterId.split('-')[1]` (`graph.js` line 1069): the second
hyphen-separated segment of a cluster identifier, the string the code uses
as the SBOM id of the cluster. -/
def clusterSbomOf (cid : String) : String :=
  String.mk ((splitOnChar '-' cid.data).getD 1 [])

/-- The per-link callback of `_createClusterLinks` (`graph.js` lines
1072-1129): a link with exactly one endpoint in the bucket becomes a
`cluster-to-node`/`node-to-cluster` link when the other endpoint is
important, or a `cross-sbom` link when the other endpoint's first-matching
node carries a `sbom` different from `cSbom` (the precomputed
`clusterId.split('-')[1]`); every other link contributes nothing. -/
def clusterLinkFor (origN : List Node) (clusterId cSbom : String)
    (clusterNodes : List Node) (impIds : List String) (l : Link) : List Link :=
  match resolveEnd l.source, resolveEnd l.target with
  | some s, some t =>
    if s = "" ∨ t = "" then []
    else if clusterNodes.any (fun n => n.id = s) && !clusterNodes.any (fun n => n.id = t) then
      if t ∈ impIds then
        [{ source := .str clusterId, target := .str t, sbom := l.sbom,
           type := "cluster-to-node" }]
      else
        match findNode origN t with
        | some tn =>
          if tn.sbom ≠ cSbom then
            [{ source := .str clusterId, target := .str t, sbom := l.sbom,
               type := "cross-sbom", sourceSbom := some cSbom,
               targetSbom := some tn.sbom }]
          else []
        | none => []
    else if clusterNodes.any (fun n => n.id = t) && !clusterNodes.any (fun n => n.id = s) then
      if s ∈ impIds then
        [{ source := .str s, target := .str clusterId, sbom := l.sbom,
           type := "node-to-cluster" }]
      else
        match findNode origN s with
        | some sn =>
          if sn.sbom ≠ cSbom then
            [{ source := .str s, target := .str clusterId, sbom := l.sbom,
               type := "cross-sbom", sourceSbom := some sn.sbom,
               targetSbom := some cSbom }]
          else []
        | none => []
    else []
  | _, _ => []

/-- `_createClusterLinks` (`graph.js` lines 1064-1132): the important id
set and `clusterSbomId = clusterId.split('-')[1]` are computed once, then
every original link is rewritten by the per-link callback. -/
def createClusterLinks (origN : List Node) (origL : List Link)
    (clusterId : String) (clusterNodes importantNodes : List Node) : List Link :=
  origL.flatMap
    (clusterLinkFor origN clusterId (clusterSbomOf clusterId) clusterNodes
      (importantNodes.map (·.id)))

/-- The node/cluster-link contribution of one SBOM whose group exceeds the
threshold (`graph.js` lines 963-1032): important nodes individually, then
one cluster node per type bucket of the regular nodes, with the rewritten
links of each bucket. -/
def clusterContribution (origN : List Node) (origL : List Link)
    (k : String) (g : List Node) : List Node × List Link :=
  let imp := g.filter (fun n => isImportant origN origL n)
  let reg := g.filter (fun n => ¬ isImportant origN origL n)
  let tys := firstDedup (reg.map typeTag)
  (imp ++ tys.map (fun ty => mkClusterNode k ty (reg.filter (fun n => typeTag n = ty))),
   tys.flatMap (fun ty =>
     createClusterLinks origN origL (mkClusterId k ty)
       (reg.filter (fun n => typeTag n = ty)) imp))

/-- The contribution of one SBOM group to the clustered graph
(`graph.js` lines 955-1033): groups at or under the threshold contribute
all their nodes, larger groups are clustered. -/
def contribution (origN : List Node) (origL : List Link) (th : Nat)
    (k : String) : List Node × List Link :=
  let g := sbomGroup origN k
  if g.length ≤ th then (g, []) else clusterContribution origN origL k g

/-- `_createClusteredGraph` body (`graph.js` lines 890-1054): per-SBOM
contributions, followed by the pass-through of every original link whose
both resolved endpoints are ids of individually kept (non-cluster) nodes. -/
def createClusteredGraphCore (origN : List Node) (origL : List Link)
    (th : Nat) : List Node × List Link :=
  let contribs := (groupKeys origN).map (contribution origN origL th)
  let ns := contribs.flatMap (·.1)
  let indivIds := (ns.filter (fun n => ¬ n.isCluster)).map (·.id)
  let pass := origL.filter (fun l =>
    match resolveEnd l.source, resolveEnd l.target with
    | some s, some t => s ∈ indivIds ∧ t ∈ indivIds
    | _, _ => False)
  (ns, contribs.flatMap (·.2) ++ pass)

/-!  ## `updateData` of the `graph.js` revision -/

/-- Endpoint-hydration loop of the `graph.js` revision of `updateData`
(lines 282-293): replace both endpoints by the matching node objects iff
both bare-string endpoints are found among the working nodes (hydrated
objects are represented by `EndRef.obj` carrying the node id). -/
def hydrateLinks (ns : List Node) (ls : List Link) : List Link :=
  ls.map (fun l =>
    let sN := match l.source with
      | .str s => findNode ns s
      | _ => none
    let tN := match l.target with
      | .str t => findNode ns t
      | _ => none
    match sN, tN with
    | some sn, some tn => { l with source := .obj (some sn.id), target := .obj (some tn.id) }
    | _, _ => l)

/-- `typeof e === 'object' && e !== null`. -/
def isObjEnd : EndRef → Bool
  | .obj _ => true
  | _ => false

/-- The final link filter of the `graph.js` revision of `updateData`
(lines 296-302): keep only links whose endpoints are non-null objects. -/
def objEndpointFilter (ls : List Link) : List Link :=
  ls.filter (fun l => isObjEnd l.source && isObjEnd l.target)

/-- Working node/link sets produced by the `graph.js` revision of
`updateData` (lines 250-309): clustering runs only when clustering is
enabled and the payload has more than 100 nodes; otherwise the payload
arrays are used as-is (no deduplication) with links hydrated. -/
def updateDataJs (showClusters : Bool) (th : Nat) (data : Payload) :
    List Node × List Link :=
  let wrk :=
    if showClusters ∧ 100 < data.nodes.length then
      createClusteredGraphCore data.nodes data.links th
    else
      (data.nodes, hydrateLinks data.nodes data.links)
  (wrk.1, objEndpointFilter wrk.2)

/-!  ## `_expandCluster` (`graph.js` lines 1135-1205) -/

/-- The graph-view state touched by `_expandCluster`. -/
structure GraphState where
  nodes : List Node := []
  links : List Link := []
  originalNodes : List Node := []
  originalLinks : List Link := []
deriving DecidableEq

/-- `clusterNode.components.includes(e)`: true only for a bare-string
endpoint whose id is in the member list (an object or null endpoint never
equals a string member). -/
def endMem (e : EndRef) (comps : List String) : Bool :=
  match e with
  | .str s => s ∈ comps
  | _ => false

/-- `_expandCluster` (`graph.js` lines 1135-1205): on a cluster node with a
components list, re-add the member nodes looked up in the original node
set, drop the cluster node and the working links whose endpoints equal its
id, re-attach original links between a member and a currently visible node,
and restore original links internal to the cluster.  A non-cluster node or
a node without a components list is left untouched. -/
def expandCluster (st : GraphState) (c : Node) : GraphState :=
  if c.isCluster = false ∨ c.components = none then st
  else
    let comps := c.components.getD []
    let expandedNodes := st.originalNodes.filter (fun n => n.id ∈ comps)
    let expandedLinks := st.originalLinks.filter (fun l =>
      endMem l.source comps && endMem l.target comps)
    let newNodes := st.nodes.filter (fun n => n.id ≠ c.id) ++ expandedNodes
    let keptLinks := st.links.filter (fun l =>
      endIsStr l.source c.id = false ∧ endIsStr l.target c.id = false)
    let boundary := st.originalLinks.filter (fun l =>
      (endMem l.source comps ∧ endMem l.target comps = false ∧
        st.nodes.any (fun n => endIsStr l.target n.id)) ∨
      (endMem l.target comps ∧ endMem l.source comps = false ∧
        st.nodes.any (fun n => endIsStr l.source n.id)))
    { st with nodes := newNodes,
              links := keptLinks ++ boundary ++ expandedLinks }

/-!  ## `filterVisibleSboms` (`graph.js` lines 162-191) -/

/-- Node visibility under `filterVisibleSboms`: when the node carries a
(truthy) `shared_in` list the display test is
`shared_in.some(id => showAll || visibleSboms.has(id))` — the node's own
`sbom` field is not consulted; otherwise it is
`showAll || visibleSboms.has(sbom)`, where `showAll` is
`visibleSboms.size === 0`. -/
def nodeVisible (visibleSboms : List String) (n : Node) : Bool :=
  match n.shared_in with
  | some l => l.any (fun i => visibleSboms.isEmpty || decide (i ∈ visibleSboms))
  | none => visibleSboms.isEmpty || decide (n.sbom ∈ visibleSboms)

/-- Link visibility under `filterVisibleSboms`:
`showAll || visibleSboms.has(link.sbom)`. -/
def linkVisible (visibleSboms : List String) (l : Link) : Bool :=
  visibleSboms.isEmpty || decide (l.sbom ∈ visibleSboms)

/-!  ## `_formatFileSize` (`graph.js` lines 733-744) -/

/-- Floor logarithm base 1024 with structural fuel:
`Math.floor(Math.log(bytes) / Math.log(1024))` for a positive integer
argument (exact real arithmetic in place of the JS doubles). -/
def log1024Aux : Nat → Nat → Nat
  | _, 0 => 0
  | n, fuel + 1 => if n < 1024 then 0 else log1024Aux (n / 1024) fuel + 1

/-- Floor logarithm base 1024. -/
def log1024 (n : Nat) : Nat := log1024Aux n n

/-- `parseFloat((n / d).toFixed(2))` rendered back to a string: the
quotient rounded to two decimal places (half up) with trailing fractional
zeros stripped. -/
def formatTwoDecimal (n d : Nat) : String :=
  let hund := (n * 200 + d) / (2 * d)
  let ip := hund / 100
  let fr := hund % 100
  if fr = 0 then toString ip
  else if fr % 10 = 0 then toString ip ++ "." ++ toString (fr / 10)
  else if fr < 10 then toString ip ++ ".0" ++ toString fr
  else toString ip ++ "." ++ toString fr

/-- `_formatFileSize` (`graph.js` lines 733-744): `"0 Bytes"` for zero,
otherwise the value scaled by `1024^floor(log1024 bytes)` with two decimal
places and the matching unit from `['Bytes','KB','MB','GB']` (an index past
the array renders as the JS string `"undefined"`). -/
def formatFileSize (bytes : Nat) : String :=
  if bytes = 0 then "0 Bytes"
  else
    let i := log1024 bytes
    formatTwoDecimal bytes (1024 ^ i) ++ " " ++
      (["Bytes", "KB", "MB", "GB"].getD i "undefined")

/-!  ## `_createClusteredGraph` with its `try`/`catch` fallback -/

/-- The `_createClusteredGraph` body over raw arrays whose elements may be
`null` (`none`): the JS body dereferences every element of
`originalNodes`/`originalLinks` in its first loops, so a null element makes
it throw; otherwise it computes the clustered graph. -/
def createClusteredGraphTry (origN : List (Option Node))
    (origL : List (Option Link)) (th : Nat) :
    Except Unit (List Node × List Link) :=
  if origN.any (·.isNone) ∨ origL.any (·.isNone) then .error ()
  else .ok (createClusteredGraphCore origN.reduceOption origL.reduceOption th)

/-- `_createClusteredGraph` with its `catch` handler (`graph.js` lines
1055-1060): on success expose the clustered arrays, on failure fall back to
the untouched original arrays. -/
def createClusteredGraphCatch (origN : List (Option Node))
    (origL : List (Option Link)) (th : Nat) :
    List (Option Node) × List (Option Link) :=
  match createClusteredGraphTry origN origL th with
  | .ok r => (r.1.map some, r.2.map some)
  | .error _ => (origN, origL)

/-!  ## Concrete instances used by counterexamples and witnesses -/

/-- Payload with a duplicated node identifier. -/
def dupPayload : Payload :=
  { nodes := [{ id := "x", sbom := "1" }, { id := "x", sbom := "1", name := "second" }],
    links := [{ source := .str "x", target := .str "y", sbom := "1" }] }

/-- Payload of one SBOM with 31 components (over the per-SBOM threshold of
30 but under the 100-node clustering gate). -/
def payload31 : Payload :=
  { nodes := (List.range 31).map
      (fun i => { id := "m" ++ toString i, sbom := "1", type := "library" }) }

/-- Payload with 101 components: 90 under SBOM `"1"` and 11 under SBOM
`"2"`. -/
def payload101 : Payload :=
  { nodes :=
      ((List.range 90).map
        (fun i => { id := "a" ++ toString i, sbom := "1", type := "library" }))
      ++ ((List.range 11).map
        (fun i => { id := "b" ++ toString i, sbom := "2", type := "library" })) }

/-- 32 components of the hyphenated SBOM `"b-1"`: 31 of type `library`
and one of type `application`. -/
def hyphenNodes : List Node :=
  (List.range 31).map
      (fun i => { id := "m" ++ toString i, sbom := "b-1", type := "library" })
    ++ [{ id := "t1", sbom := "b-1", type := "application" }]

/-- One intra-SBOM link between two differently typed regular components of
`hyphenNodes`. -/
def hyphenLinks : List Link :=
  [{ source := .str "m0", target := .str "t1", sbom := "b-1" }]

/-- A component of the hyphen-free SBOM `"sb1"` and one of SBOM
`"other"`. -/
def plainNodes : List Node :=
  [{ id := "m1", sbom := "sb1", type := "library" },
   { id := "t2", sbom := "other", type := "library" }]

/-- One cross-SBOM link between the two components of `plainNodes`. -/
def plainLinks : List Link :=
  [{ source := .str "m1", target := .str "t2", sbom := "sb1" }]

/-- The bucket holding the single regular `"sb1"` component. -/
def plainBucket : List Node :=
  [{ id := "m1", sbom := "sb1", type := "library" }]

/-- The `cross-sbom` link record `_createClusterLinks` emits for
`plainLinks` against the `"sb1"` library cluster. -/
def crossRecordPlain : Link :=
  { source := .str "cluster-sb1-library", target := .str "t2", sbom := "sb1",
    type := "cross-sbom", sourceSbom := some "sb1", targetSbom := some "other" }

/-- A three-node original graph with a two-member cluster over it. -/
def expNodeA : Node := { id := "a", sbom := "1", type := "library" }

/-- Second member node of the expansion example. -/
def expNodeB : Node := { id := "b", sbom := "1", type := "library" }

/-- A node of the expansion example that stays visible individually. -/
def expNodeX : Node := { id := "x", sbom := "2", type := "library" }

/-- The cluster node standing for `expNodeA` and `expNodeB`. -/
def expCluster : Node :=
  { id := "cluster-1-library", name := "2 library components",
    type := "cluster", sbom := "1", clusterType := "library",
    componentCount := 2, components := some ["a", "b"], isCluster := true }

/-- Original link internal to the cluster of the expansion example. -/
def expLinkAB : Link := { source := .str "a", target := .str "b", sbom := "1" }

/-- Original boundary link of the expansion example. -/
def expLinkAX : Link := { source := .str "a", target := .str "x", sbom := "1" }

/-- Working state of the expansion example: the cluster and `expNodeX`
visible, one rewritten cluster link. -/
def expState : GraphState :=
  { nodes := [expCluster, expNodeX],
    links := [{ source := .str "cluster-1-library", target := .str "x",
                sbom := "1", type := "cluster-to-node" }],
    originalNodes := [expNodeA, expNodeB, expNodeX],
    originalLinks := [expLinkAB, expLinkAX] }

/-- Color-assignment ingestion sequence: SBOM `A` alone, then `B` and `A`
again. -/
def seqPayloads : List (List Node) :=
  [[{ id := "n1", sbom := "A" }], [{ id := "n2", sbom := "B" }, { id := "n3", sbom := "A" }]]

/-- The first of the two duplicated nodes of `dupPayload`. -/
def dupNodeFirst : Node := { id := "x", sbom := "1" }

/-- A node whose `shared_in` list does not contain its own `sbom`. -/
def visNode : Node := { id := "n1", sbom := "Y", shared_in := some ["X"] }

/-- A node with a present but empty `shared_in` list. -/
def visNodeEmptyShared : Node := { id := "n2", sbom := "Z", shared_in := some [] }

/-- A node without a `shared_in` list. -/
def visNodePlain : Node := { id := "n3", sbom := "A" }

/-!  ## Theorems -/

theorem firstDedupAux_mem [DecidableEq α] (l : List α) :
    ∀ (seen : List α) (x : α), x ∈ firstDedupAux l seen ↔ x ∈ l ∧ x ∉ seen := by
  induction l with
  | nil => intro seen x; simp [firstDedupAux]
  | cons a l ih =>
    intro seen x
    by_cases ha : a ∈ seen
    · rw [firstDedupAux, if_pos ha, ih]
      constructor
      · rintro ⟨h1, h2⟩; exact ⟨List.mem_cons_of_mem _ h1, h2⟩
      · rintro ⟨h1, h2⟩
        rcases List.mem_cons.mp h1 with rfl | h1
        · exact absurd ha h2
        · exact ⟨h1, h2⟩
    · rw [firstDedupAux, if_neg ha]
      constructor
      · intro h
        rcases List.mem_cons.mp h with rfl | h
        · exact ⟨List.mem_cons_self _ _, ha⟩
        · obtain ⟨h1, h2⟩ := (ih _ _).mp h
          exact ⟨List.mem_cons_of_mem _ h1,
            fun hc => h2 (List.mem_cons_of_mem _ hc)⟩
      · rintro ⟨h1, h2⟩
        rcases List.mem_cons.mp h1 with rfl | h1
        · exact List.mem_cons_self _ _
        · by_cases hxa : x = a
          · subst hxa; exact List.mem_cons_self _ _
          · exact List.mem_cons_of_mem _ ((ih _ _).mpr
              ⟨h1, fun hc => by
                rcases List.mem_cons.mp hc with h | h
                · exact hxa h
                · exact h2 h⟩)

theorem firstDedupAux_nodup [DecidableEq α] (l : List α) :
    ∀ seen : List α, (firstDedupAux l seen).Nodup := by
  induction l with
  | nil => intro seen; simp [firstDedupAux]
  | cons a l ih =>
    intro seen
    by_cases ha : a ∈ seen
    · rw [firstDedupAux, if_pos ha]; exact ih seen
    · rw [firstDedupAux, if_neg ha]
      refine List.nodup_cons.mpr ⟨?_, ih _⟩
      intro hc
      exact ((firstDedupAux_mem l _ a).mp hc).2 (List.mem_cons_self _ _)

theorem firstDedup_mem [DecidableEq α] (l : List α) (x : α) :
    x ∈ firstDedup l ↔ x ∈ l := by
  rw [firstDedup, firstDedupAux_mem]; simp

theorem firstDedup_nodup [DecidableEq α] (l : List α) : (firstDedup l).Nodup :=
  firstDedupAux_nodup l []

theorem firstDedupAux_congr_seen [DecidableEq α] (l : List α) :
    ∀ s₁ s₂ : List α, (∀ x, x ∈ s₁ ↔ x ∈ s₂) →
      firstDedupAux l s₁ = firstDedupAux l s₂ := by
  induction l with
  | nil => intro s₁ s₂ _; rfl
  | cons a l ih =>
    intro s₁ s₂ h
    by_cases ha : a ∈ s₁
    · rw [firstDedupAux, if_pos ha, firstDedupAux, if_pos ((h a).mp ha)]
      exact ih s₁ s₂ h
    · rw [firstDedupAux, if_neg ha, firstDedupAux, if_neg (fun hc => ha ((h a).mpr hc))]
      refine congrArg _ (ih _ _ fun x => ?_)
      simp only [List.mem_cons]
      exact or_congr Iff.rfl (h x)

theorem flatMap_congr {α β : Type} {l : List α} {f g : α → List β}
    (h : ∀ a ∈ l, f a = g a) : l.flatMap f = l.flatMap g := by
  induction l with
  | nil => rfl
  | cons a l ih =>
    simp only [List.flatMap_cons]
    rw [h a (List.mem_cons_self _ _), ih (fun x hx => h x (List.mem_cons_of_mem _ hx))]

theorem flatMap_eq_nil_of_forall {α β : Type} {l : List α} {f : α → List β}
    (h : ∀ a ∈ l, f a = []) : l.flatMap f = [] := by
  induction l with
  | nil => rfl
  | cons a l ih =>
    simp only [List.flatMap_cons]
    rw [h a (List.mem_cons_self _ _), List.nil_append]
    exact ih (fun x hx => h x (List.mem_cons_of_mem _ hx))

theorem flatMap_eq_single {α β : Type} [DecidableEq β] {keys : List β} {k : β}
    (f : β → List α) (hnd : keys.Nodup) (hk : k ∈ keys)
    (hz : ∀ j ∈ keys, j ≠ k → f j = []) : keys.flatMap f = f k := by
  induction keys with
  | nil => cases hk
  | cons j js ih =>
    obtain ⟨hj, hnd'⟩ := List.nodup_cons.mp hnd
    simp only [List.flatMap_cons]
    rcases List.mem_cons.mp hk with rfl | hk'
    · rw [flatMap_eq_nil_of_forall (fun x hx => hz x (List.mem_cons_of_mem _ hx)
        (fun hxk => hj (hxk ▸ hx))), List.append_nil]
    · rw [hz j (List.mem_cons_self _ _) (fun hjk => hj (hjk ▸ hk')), List.nil_append]
      exact ih hnd' hk' (fun x hx => hz x (List.mem_cons_of_mem _ hx))

theorem flatMap_filter_key_perm {α β : Type} [DecidableEq β] (key : α → β) :
    ∀ (keys : List β) (l : List α), keys.Nodup → (∀ a ∈ l, key a ∈ keys) →
      (keys.flatMap (fun k => l.filter (fun a => key a = k))).Perm l := by
  intro keys
  induction keys with
  | nil =>
    intro l _ hcov
    cases l with
    | nil => simp
    | cons a l => exact absurd (hcov a (List.mem_cons_self _ _)) (List.not_mem_nil _)
  | cons k ks ih =>
    intro l hnd hcov
    obtain ⟨hk, hnd'⟩ := List.nodup_cons.mp hnd
    simp only [List.flatMap_cons]
    have hrw : ks.flatMap (fun j => l.filter (fun a => key a = j))
        = ks.flatMap (fun j =>
            (l.filter (fun a => ¬ key a = k)).filter (fun a => key a = j)) := by
      refine flatMap_congr (fun j hj => ?_)
      have hjk : j ≠ k := fun h => hk (h ▸ hj)
      rw [List.filter_filter]
      refine (List.filter_congr (fun a _ => ?_)).symm
      by_cases h : key a = j
      · simp [h, hjk]
      · simp [h]
    rw [hrw]
    have hperm := ih (l.filter (fun a => ¬ key a = k)) hnd' (fun a ha => by
      obtain ⟨hal, hak⟩ := List.mem_filter.mp ha
      rcases List.mem_cons.mp (hcov a hal) with h | h
      · exact absurd h (by simpa using hak)
      · exact h)
    refine (hperm.append_left _).trans ?_
    have hfp := List.filter_append_perm (fun a => decide (key a = k)) l
    simpa [decide_not] using hfp

theorem filter_decAnd {α : Type} (l : List α) (p q : α → Prop)
    [DecidablePred p] [DecidablePred q] :
    l.filter (fun a => p a ∧ q a) = (l.filter (fun a => p a)).filter (fun a => q a) := by
  induction l with
  | nil => rfl
  | cons a l ih =>
    by_cases hp : p a <;> by_cases hq : q a <;> simp [hp, hq, ih] <;>
      exact List.filter_congr (fun x _ => Bool.and_comm _ _)

theorem flatMap_map_fn {α β γ : Type} (l : List α) (f : α → β) (g : β → List γ) :
    (l.map f).flatMap g = l.flatMap (fun a => g (f a)) := by
  induction l with
  | nil => rfl
  | cons a l ih => simp only [List.map_cons, List.flatMap_cons, ih]

theorem mem_sbomGroup_sub {origN : List Node} {k : String} {n : Node}
    (h : n ∈ sbomGroup origN k) : n ∈ origN :=
  (List.mem_filter.mp (List.mem_filter.mp h).1).1

theorem mem_contribution_sbom (origN : List Node) (origL : List Link) (th : Nat)
    (j : String) : ∀ n ∈ (contribution origN origL th j).1, n.sbom = j := by
  intro n hn
  unfold contribution at hn
  by_cases hle : (sbomGroup origN j).length ≤ th
  · rw [if_pos hle] at hn
    exact of_decide_eq_true (List.mem_filter.mp hn).2
  · rw [if_neg hle] at hn
    unfold clusterContribution at hn
    rcases List.mem_append.mp hn with h | h
    · exact of_decide_eq_true
        (List.mem_filter.mp (List.mem_filter.mp h).1).2
    · obtain ⟨ty, -, rfl⟩ := List.mem_map.mp h
      rfl

theorem core_nodes_eq (origN : List Node) (origL : List Link) (th : Nat) :
    (createClusteredGraphCore origN origL th).1
      = (groupKeys origN).flatMap (fun j => (contribution origN origL th j).1) := by
  unfold createClusteredGraphCore
  exact flatMap_map_fn _ _ _

theorem groupKeys_nodup (origN : List Node) : (groupKeys origN).Nodup :=
  firstDedup_nodup _

theorem core_filter_sbom (origN : List Node) (origL : List Link) (th : Nat)
    {k : String} (hk : k ∈ groupKeys origN) :
    (createClusteredGraphCore origN origL th).1.filter (fun n => n.sbom = k)
      = (contribution origN origL th k).1 := by
  rw [core_nodes_eq, List.filter_flatMap]
  rw [flatMap_eq_single
      (fun j => (contribution origN origL th j).1.filter (fun n => n.sbom = k))
      (groupKeys_nodup origN) hk (fun j _ hjk =>
    List.filter_eq_nil_iff.mpr (fun n hn => by
      simp [mem_contribution_sbom origN origL th j n hn, hjk]))]
  exact List.filter_eq_self.mpr (fun n hn =>
    decide_eq_true (mem_contribution_sbom origN origL th k n hn))

theorem contribution_big (origN : List Node) (origL : List Link) (th : Nat)
    (k : String) (hbig : th < (sbomGroup origN k).length) :
    (contribution origN origL th k).1
      = (sbomGroup origN k).filter (fun n => isImportant origN origL n)
        ++ (firstDedup (((sbomGroup origN k).filter
              (fun n => ¬ isImportant origN origL n)).map typeTag)).map
            (fun ty => mkClusterNode k ty
              (((sbomGroup origN k).filter
                (fun n => ¬ isImportant origN origL n)).filter
                  (fun n => typeTag n = ty))) := by
  unfold contribution
  rw [if_neg (not_le.mpr hbig)]
  rfl

theorem core_filter_noncluster (origN : List Node) (origL : List Link) (th : Nat)
    {k : String} (hk : k ∈ groupKeys origN)
    (hbig : th < (sbomGroup origN k).length)
    (hclean : ∀ n ∈ origN, n.isCluster = false) :
    (createClusteredGraphCore origN origL th).1.filter
        (fun n => n.sbom = k ∧ n.isCluster = false)
      = (sbomGroup origN k).filter (fun n => isImportant origN origL n) := by
  rw [filter_decAnd, core_filter_sbom origN origL th hk,
      contribution_big origN origL th k hbig, List.filter_append]
  have h1 : ((sbomGroup origN k).filter
        (fun n => isImportant origN origL n)).filter
          (fun n => n.isCluster = false)
      = (sbomGroup origN k).filter (fun n => isImportant origN origL n) :=
    List.filter_eq_self.mpr (fun n hn => by
      have := hclean n (mem_sbomGroup_sub (List.mem_filter.mp hn).1)
      simp [this])
  have h2 : ((firstDedup (((sbomGroup origN k).filter
          (fun n => ¬ isImportant origN origL n)).map typeTag)).map
            (fun ty => mkClusterNode k ty
              (((sbomGroup origN k).filter
                (fun n => ¬ isImportant origN origL n)).filter
                  (fun n => typeTag n = ty)))).filter
        (fun n => n.isCluster = false) = [] :=
    List.filter_eq_nil_iff.mpr (fun n hn => by
      obtain ⟨ty, -, rfl⟩ := List.mem_map.mp hn
      simp [mkClusterNode])
  rw [h1, h2, List.append_nil]

theorem core_filter_cluster (origN : List Node) (origL : List Link) (th : Nat)
    {k : String} (hk : k ∈ groupKeys origN)
    (hbig : th < (sbomGroup origN k).length)
    (hclean : ∀ n ∈ origN, n.isCluster = false) :
    (createClusteredGraphCore origN origL th).1.filter
        (fun n => n.sbom = k ∧ n.isCluster = true)
      = (firstDedup (((sbomGroup origN k).filter
            (fun n => ¬ isImportant origN origL n)).map typeTag)).map
          (fun ty => mkClusterNode k ty
            (((sbomGroup origN k).filter
              (fun n => ¬ isImportant origN origL n)).filter
                (fun n => typeTag n = ty))) := by
  rw [filter_decAnd, core_filter_sbom origN origL th hk,
      contribution_big origN origL th k hbig, List.filter_append]
  have h1 : ((sbomGroup origN k).filter
        (fun n => isImportant origN origL n)).filter
          (fun n => n.isCluster = true) = [] :=
    List.filter_eq_nil_iff.mpr (fun n hn => by
      have := hclean n (mem_sbomGroup_sub (List.mem_filter.mp hn).1)
      simp [this])
  have h2 : ((firstDedup (((sbomGroup origN k).filter
          (fun n => ¬ isImportant origN origL n)).map typeTag)).map
            (fun ty => mkClusterNode k ty
              (((sbomGroup origN k).filter
                (fun n => ¬ isImportant origN origL n)).filter
                  (fun n => typeTag n = ty)))).filter
        (fun n => n.isCluster = true)
      = (firstDedup (((sbomGroup origN k).filter
            (fun n => ¬ isImportant origN origL n)).map typeTag)).map
          (fun ty => mkClusterNode k ty
            (((sbomGroup origN k).filter
              (fun n => ¬ isImportant origN origL n)).filter
                (fun n => typeTag n = ty))) :=
    List.filter_eq_self.mpr (fun n hn => by
      obtain ⟨ty, -, rfl⟩ := List.mem_map.mp hn
      simp [mkClusterNode])
  rw [h1, h2, List.nil_append]

/-- Claim C2: for every SBOM whose node group exceeds the threshold, the
clustered graph keeps individually exactly the group's important nodes
(shared, cross-SBOM linked, or incident to more than 5 original links); the
regular remainder is partitioned without loss or duplication across the
cluster nodes bucketed by type tag, and every cluster records
`componentCount` equal to its bucket size and `components` equal to its
bucket's member identifiers (the cluster tags are exactly the distinct type
tags of the regular nodes, in first-occurrence order). -/
theorem cluster_partition_exact (origN : List Node) (origL : List Link)
    (th : Nat) (k : String) (hk : k ∈ groupKeys origN)
    (hbig : th < (sbomGroup origN k).length)
    (hclean : ∀ n ∈ origN, n.isCluster = false) :
    (createClusteredGraphCore origN origL th).1.filter
        (fun n => n.sbom = k ∧ n.isCluster = false)
      = (sbomGroup origN k).filter (fun n => isImportant origN origL n)
    ∧ (((createClusteredGraphCore origN origL th).1.filter
          (fun n => n.sbom = k ∧ n.isCluster = true)).flatMap
            (fun c => c.components.getD [])).Perm
        (((sbomGroup origN k).filter
          (fun n => ¬ isImportant origN origL n)).map (·.id))
    ∧ (∀ c ∈ (createClusteredGraphCore origN origL th).1.filter
          (fun n => n.sbom = k ∧ n.isCluster = true),
        c.componentCount = (c.components.getD []).length ∧
        c.components = some ((((sbomGroup origN k).filter
            (fun n => ¬ isImportant origN origL n)).filter
              (fun n => typeTag n = c.clusterType)).map (·.id)))
    ∧ ((createClusteredGraphCore origN origL th).1.filter
          (fun n => n.sbom = k ∧ n.isCluster = true)).map (·.clusterType)
        = firstDedup (((sbomGroup origN k).filter
            (fun n => ¬ isImportant origN origL n)).map typeTag) := by
  refine ⟨core_filter_noncluster origN origL th hk hbig hclean, ?_, ?_, ?_⟩
  · rw [core_filter_cluster origN origL th hk hbig hclean, flatMap_map_fn]
    have hfl : (firstDedup (((sbomGroup origN k).filter
          (fun n => ¬ isImportant origN origL n)).map typeTag)).flatMap
            (fun ty => (mkClusterNode k ty
              (((sbomGroup origN k).filter
                (fun n => ¬ isImportant origN origL n)).filter
                  (fun n => typeTag n = ty))).components.getD [])
        = ((firstDedup (((sbomGroup origN k).filter
            (fun n => ¬ isImportant origN origL n)).map typeTag)).flatMap
              (fun ty => ((sbomGroup origN k).filter
                (fun n => ¬ isImportant origN origL n)).filter
                  (fun n => typeTag n = ty))).map (·.id) := by
      rw [List.map_flatMap]
      rfl
    rw [hfl]
    refine List.Perm.map _ ?_
    exact flatMap_filter_key_perm typeTag _ _ (firstDedup_nodup _)
      (fun a ha => (firstDedup_mem _ _).mpr (List.mem_map_of_mem _ ha))
  · intro c hc
    rw [core_filter_cluster origN origL th hk hbig hclean] at hc
    obtain ⟨ty, -, rfl⟩ := List.mem_map.mp hc
    exact ⟨by simp [mkClusterNode], by simp [mkClusterNode]⟩
  · rw [core_filter_cluster origN origL th hk hbig hclean, List.map_map]
    exact List.map_id' _

/-- Claim C3 counterexample: with clustering enabled and the default
threshold 30, a payload whose single SBOM has 31 nodes (over the per-SBOM
threshold) but whose total node count is at most 100 is not clustered at
all — `updateData` of `graph.js` copies the payload nodes unchanged, so the
SBOM contributes all 31 nodes individually and no cluster node exists. -/
theorem updateData_under100_not_clustered :
    (payload31.nodes.filter (fun n => n.sbom = "1")).length = 31
    ∧ (updateDataJs true 30 payload31).1 = payload31.nodes
    ∧ (updateDataJs true 30 payload31).1.all (fun n => !n.isCluster) = true := by
  decide

/-- Claim C3 as amended: with clustering enabled, `updateData` of
`graph.js` runs the cluster engine only when the payload has more than 100
nodes; in that case a SBOM group at or under the threshold contributes all
its nodes unclustered and a group over the threshold keeps exactly its
important nodes individually; with 100 nodes or fewer the payload nodes are
exposed unchanged regardless of per-SBOM counts. -/
theorem updateData_clustering_trigger (data : Payload) (th : Nat) :
    (data.nodes.length ≤ 100 → (updateDataJs true th data).1 = data.nodes)
    ∧ (∀ k, 100 < data.nodes.length → k ∈ groupKeys data.nodes →
        (sbomGroup data.nodes k).length ≤ th →
        (updateDataJs true th data).1.filter (fun n => n.sbom = k)
          = sbomGroup data.nodes k)
    ∧ (∀ k, 100 < data.nodes.length → k ∈ groupKeys data.nodes →
        th < (sbomGroup data.nodes k).length →
        (∀ n ∈ data.nodes, n.isCluster = false) →
        (updateDataJs true th data).1.filter
            (fun n => n.sbom = k ∧ n.isCluster = false)
          = (sbomGroup data.nodes k).filter
              (fun n => isImportant data.nodes data.links n)) := by
  refine ⟨?_, ?_, ?_⟩
  · intro hle
    unfold updateDataJs
    rw [if_neg (fun h => absurd h.2 (not_lt.mpr hle))]
  · intro k h100 hk hle
    unfold updateDataJs
    rw [if_pos ⟨rfl, h100⟩]
    rw [core_filter_sbom data.nodes data.links th hk]
    unfold contribution
    rw [if_pos hle]
  · intro k h100 hk hbig hclean
    unfold updateDataJs
    rw [if_pos ⟨rfl, h100⟩]
    exact core_filter_noncluster data.nodes data.links th hk hbig hclean

/-- Claim C2 witness at a concrete 31-node SBOM. -/
theorem cluster_partition_exact_witness :
    (createClusteredGraphCore payload31.nodes [] 30).1.filter
        (fun n => n.sbom = "1" ∧ n.isCluster = false)
      = (sbomGroup payload31.nodes "1").filter
          (fun n => isImportant payload31.nodes [] n) :=
  (cluster_partition_exact payload31.nodes [] 30 "1"
    (by decide) (by decide) (by decide)).1

/-- Claim C3 amended witness at a concrete 101-node payload. -/
theorem updateData_clustering_trigger_witness :
    (updateDataJs true 30 payload101).1.filter (fun n => n.sbom = "2")
      = sbomGroup payload101.nodes "2" :=
  (updateData_clustering_trigger payload101 30).2.1 "2"
    (by decide) (by decide) (by decide)

/-- Claim C4: expanding a cluster node adds back exactly the original nodes
whose identifiers are in its recorded `components` list, removes the
cluster node itself and every working link whose endpoint equals its id,
and restores every original link whose both endpoints are members of the
cluster.  The last two hypotheses say that the original arrays carry no
synthetic cluster data (no original node is a cluster, no original link
references the synthetic cluster identifier). -/
theorem expandCluster_effect (st : GraphState) (c : Node) (comps : List String)
    (hcl : c.isCluster = true) (hcomp : c.components = some comps)
    (hmem : c ∈ st.nodes)
    (hclean : ∀ n ∈ st.originalNodes, n.isCluster = false)
    (horig : ∀ l ∈ st.originalLinks,
      endIsStr l.source c.id = false ∧ endIsStr l.target c.id = false) :
    (expandCluster st c).nodes
        = st.nodes.filter (fun n => n.id ≠ c.id)
          ++ st.originalNodes.filter (fun n => n.id ∈ comps)
    ∧ c ∉ (expandCluster st c).nodes
    ∧ (∀ l ∈ st.originalLinks,
        endMem l.source comps = true → endMem l.target comps = true →
        l ∈ (expandCluster st c).links)
    ∧ (∀ l ∈ (expandCluster st c).links,
        endIsStr l.source c.id = false ∧ endIsStr l.target c.id = false) := by
  have hguard : ¬ (c.isCluster = false ∨ c.components = none) := by
    rintro (h | h)
    · rw [hcl] at h; cases h
    · rw [hcomp] at h; cases h
  have hnodes : (expandCluster st c).nodes
      = st.nodes.filter (fun n => n.id ≠ c.id)
        ++ st.originalNodes.filter (fun n => n.id ∈ comps) := by
    rw [expandCluster, if_neg hguard]
    simp only [hcomp, Option.getD_some]
  have hlinks : (expandCluster st c).links
      = st.links.filter (fun l =>
          endIsStr l.source c.id = false ∧ endIsStr l.target c.id = false)
        ++ st.originalLinks.filter (fun l =>
          (endMem l.source comps ∧ endMem l.target comps = false ∧
            st.nodes.any (fun n => endIsStr l.target n.id)) ∨
          (endMem l.target comps ∧ endMem l.source comps = false ∧
            st.nodes.any (fun n => endIsStr l.source n.id)))
        ++ st.originalLinks.filter (fun l =>
          endMem l.source comps && endMem l.target comps) := by
    rw [expandCluster, if_neg hguard]
    simp only [hcomp, Option.getD_some]
  refine ⟨hnodes, ?_, ?_, ?_⟩
  · rw [hnodes]
    intro hc
    rcases List.mem_append.mp hc with h | h
    · have := (List.mem_filter.mp h).2
      simp at this
    · have := hclean c (List.mem_filter.mp h).1
      rw [hcl] at this; cases this
  · intro l hl h1 h2
    rw [hlinks]
    exact List.mem_append_right _ (List.mem_filter.mpr ⟨hl, by simp [h1, h2]⟩)
  · intro l hl
    rw [hlinks] at hl
    rcases List.mem_append.mp hl with hl | hl
    · rcases List.mem_append.mp hl with hl | hl
      · have := (List.mem_filter.mp hl).2
        simpa using this
      · exact horig l (List.mem_filter.mp hl).1
    · exact horig l (List.mem_filter.mp hl).1

/-- Claim C4 witness at the concrete two-member cluster `expCluster`. -/
theorem expandCluster_effect_witness :
    expLinkAB ∈ (expandCluster expState expCluster).links :=
  (expandCluster_effect expState expCluster ["a", "b"] rfl rfl
      (by decide) (by decide) (by decide)).2.2.1
    expLinkAB (by decide) (by decide) (by decide)

/-- Claim C10: calling `_expandCluster` on a node that is not a cluster or
has no components list leaves the whole graph state unchanged. -/
theorem expandCluster_noop (st : GraphState) (c : Node)
    (h : c.isCluster = false ∨ c.components = none) :
    expandCluster st c = st := by
  rw [expandCluster, if_pos h]

/-- Claim C10 witness: expanding a plain node is a no-op on a concrete
state. -/
theorem expandCluster_noop_witness :
    expandCluster expState visNodePlain = expState :=
  expandCluster_noop expState visNodePlain (Or.inl rfl)

theorem dedupNodesAux_sound (ns : List Node) :
    ∀ seen, ∀ n ∈ dedupNodesAux ns seen,
      n.id ≠ "" ∧ n.id ∉ seen ∧
        ns.find? (fun m => m.id = n.id) = some n := by
  induction ns with
  | nil => intro seen n hn; simp [dedupNodesAux] at hn
  | cons hd tl ih =>
    intro seen n hn
    by_cases hkeep : hd.id ≠ "" ∧ hd.id ∉ seen
    · rw [dedupNodesAux, if_pos hkeep] at hn
      rcases List.mem_cons.mp hn with hn | hn
      · subst hn
        exact ⟨hkeep.1, hkeep.2, by simp [List.find?]⟩
      · obtain ⟨hne, hseen, hfind⟩ := ih (hd.id :: seen) n hn
        have hid : ¬ (hd.id = n.id) := fun h => hseen (by simp [h])
        refine ⟨hne, fun hc => hseen (List.mem_cons_of_mem _ hc), ?_⟩
        rw [List.find?_cons_of_neg _ (by simpa using hid)]
        exact hfind
    · rw [dedupNodesAux, if_neg hkeep] at hn
      obtain ⟨hne, hseen, hfind⟩ := ih seen n hn
      have hid : ¬ (hd.id = n.id) := by
        intro h
        rcases not_and_or.mp hkeep with h1 | h1
        · exact hne (by rw [← h]; simpa using h1)
        · exact hseen (by rw [← h]; exact not_not.mp h1)
      refine ⟨hne, hseen, ?_⟩
      rw [List.find?_cons_of_neg _ (by simpa using hid)]
      exact hfind

theorem dedupNodesAux_nodup (ns : List Node) :
    ∀ seen, ((dedupNodesAux ns seen).map (·.id)).Nodup := by
  induction ns with
  | nil => intro seen; simp [dedupNodesAux]
  | cons hd tl ih =>
    intro seen
    by_cases hkeep : hd.id ≠ "" ∧ hd.id ∉ seen
    · rw [dedupNodesAux, if_pos hkeep]
      simp only [List.map_cons, List.nodup_cons]
      constructor
      · intro hmem
        obtain ⟨n, hn, hid⟩ := List.mem_map.mp hmem
        obtain ⟨_, hseen, _⟩ := dedupNodesAux_sound tl (hd.id :: seen) n hn
        exact hseen (by simp [hid])
      · exact ih (hd.id :: seen)
    · rw [dedupNodesAux, if_neg hkeep]
      exact ih seen

theorem mem_validateLinks {nodeIds : List String} {ls : List Link} {l : Link}
    (h : l ∈ validateLinks nodeIds ls) :
    ∃ s t, l.source = EndRef.str s ∧ l.target = EndRef.str t ∧
      s ∈ nodeIds ∧ t ∈ nodeIds := by
  obtain ⟨l₀, -, hmk⟩ := List.mem_filterMap.mp h
  revert hmk
  cases resolveEnd l₀.source with
  | none => intro hmk; simp at hmk
  | some s =>
    cases resolveEnd l₀.target with
    | none => intro hmk; simp at hmk
    | some t =>
      intro hmk
      by_cases hc : s ≠ "" ∧ t ≠ "" ∧ s ∈ nodeIds ∧ t ∈ nodeIds
      · simp only [if_pos hc, Option.some.injEq] at hmk
        obtain ⟨-, -, h1, h2⟩ := hc
        subst hmk
        exact ⟨s, t, rfl, rfl, h1, h2⟩
      · simp only [if_neg hc] at hmk
        exact Option.noConfusion hmk

theorem lookupA_eq_none (m : List (String × String)) (k : String) :
    lookupA m k = none ↔ k ∉ m.map Prod.fst := by
  unfold lookupA
  rw [Option.map_eq_none', List.find?_eq_none]
  constructor
  · intro h hk
    obtain ⟨p, hp, he⟩ := List.mem_map.mp hk
    have := h p hp
    simp [he] at this
  · intro h p hp
    simp only [decide_eq_true_eq]
    intro he
    exact h (he ▸ List.mem_map_of_mem Prod.fst hp)

theorem lookupA_append_left {m : List (String × String)} {k : String}
    {c : String} (h : lookupA m k = some c) (m' : List (String × String)) :
    lookupA (m ++ m') k = some c := by
  unfold lookupA at h ⊢
  obtain ⟨p, hp, he⟩ := Option.map_eq_some'.mp h
  rw [List.find?_append, hp]
  exact congrArg _ he

theorem assignColorsStep_sbomEmpty {acc : List (String × String) × List String}
    {n : Node} (hs : n.sbom = "") : assignColorsStep acc n = acc := by
  rw [assignColorsStep, if_neg (by simp [hs])]

theorem assignColorsStep_fresh {acc : List (String × String) × List String}
    {n : Node} (hs : ¬ n.sbom = "") (hl : lookupA acc.1 n.sbom = none) :
    (assignColorsStep acc n).1
      = acc.1 ++ [(n.sbom, colorPalette.getD (acc.1.length % colorPalette.length) "")] := by
  rw [assignColorsStep, if_pos hs, if_pos hl]

theorem assignColorsStep_seen {acc : List (String × String) × List String}
    {n : Node} (hs : ¬ n.sbom = "") (hl : ¬ lookupA acc.1 n.sbom = none) :
    (assignColorsStep acc n).1 = acc.1 := by
  rw [assignColorsStep, if_pos hs, if_neg hl]

theorem assignColorsNodes_fst (ns : List Node) :
    ∀ acc : List (String × String) × List String,
      (assignColorsNodes acc ns).1.map Prod.fst
        = acc.1.map Prod.fst
          ++ firstDedupAux ((ns.map (·.sbom)).filter (fun s => s ≠ ""))
              (acc.1.map Prod.fst) := by
  induction ns with
  | nil => intro acc; simp [assignColorsNodes, firstDedupAux]
  | cons n ns ih =>
    intro acc
    show (assignColorsNodes (assignColorsStep acc n) ns).1.map Prod.fst = _
    by_cases hs : n.sbom = ""
    · rw [assignColorsStep_sbomEmpty hs, ih acc]
      congr 1
      simp [hs]
    · have hstream : ((n :: ns).map (·.sbom)).filter (fun s => s ≠ "")
          = n.sbom :: ((ns.map (·.sbom)).filter (fun s => s ≠ "")) := by
        simp [hs]
      rw [hstream]
      by_cases hl : lookupA acc.1 n.sbom = none
      · have hmem : n.sbom ∉ acc.1.map Prod.fst := (lookupA_eq_none _ _).mp hl
        rw [ih (assignColorsStep acc n)]
        rw [show ((assignColorsStep acc n).1.map Prod.fst)
            = acc.1.map Prod.fst ++ [n.sbom] from by
          rw [assignColorsStep_fresh hs hl]; simp]
        rw [firstDedupAux, if_neg hmem]
        have hseen : firstDedupAux ((ns.map (·.sbom)).filter (fun s => s ≠ ""))
            (acc.1.map Prod.fst ++ [n.sbom])
          = firstDedupAux ((ns.map (·.sbom)).filter (fun s => s ≠ ""))
              (n.sbom :: acc.1.map Prod.fst) :=
          firstDedupAux_congr_seen _ _ _
            (fun x => by simp [List.mem_append, List.mem_cons, or_comm])
        rw [hseen, List.append_assoc]
        rfl
      · have hmem : n.sbom ∈ acc.1.map Prod.fst := by
          by_contra hc
          exact hl ((lookupA_eq_none _ _).mpr hc)
        rw [firstDedupAux, if_pos hmem]
        rw [ih (assignColorsStep acc n), assignColorsStep_seen hs hl]

theorem assignColorsStep_snd (acc : List (String × String) × List String)
    (n : Node)
    (hinv : ∀ i, (h : i < acc.1.length) →
      (acc.1.get ⟨i, h⟩).2 = colorPalette.getD (i % colorPalette.length) "") :
    ∀ i, (h : i < (assignColorsStep acc n).1.length) →
      ((assignColorsStep acc n).1.get ⟨i, h⟩).2
        = colorPalette.getD (i % colorPalette.length) "" := by
  by_cases hs : n.sbom = ""
  · rw [assignColorsStep_sbomEmpty hs]
    exact hinv
  · by_cases hl : lookupA acc.1 n.sbom = none
    · rw [assignColorsStep_fresh hs hl]
      intro i h
      rcases lt_or_ge i acc.1.length with hi | hi
      · rw [List.get_eq_getElem, List.getElem_append_left hi]
        exact hinv i hi
      · have hieq : i = acc.1.length := by
          have hlen : i < acc.1.length + 1 := by simpa using h
          omega
        subst hieq
        rw [List.get_eq_getElem, List.getElem_append_right hi]
        simp
    · rw [assignColorsStep_seen hs hl]
      exact hinv

theorem assignColorsNodes_snd (ns : List Node) :
    ∀ acc : List (String × String) × List String,
      (∀ i, (h : i < acc.1.length) →
        (acc.1.get ⟨i, h⟩).2 = colorPalette.getD (i % colorPalette.length) "") →
      ∀ i, (h : i < (assignColorsNodes acc ns).1.length) →
        ((assignColorsNodes acc ns).1.get ⟨i, h⟩).2
          = colorPalette.getD (i % colorPalette.length) "" := by
  induction ns with
  | nil => intro acc hinv; exact hinv
  | cons n ns ih =>
    intro acc hinv
    exact ih (assignColorsStep acc n) (assignColorsStep_snd acc n hinv)

theorem assignColorsNodes_lookup_mono (ns : List Node) :
    ∀ (acc : List (String × String) × List String) (k c : String),
      lookupA acc.1 k = some c →
      lookupA (assignColorsNodes acc ns).1 k = some c := by
  induction ns with
  | nil => intro acc k c h; exact h
  | cons n ns ih =>
    intro acc k c h
    refine ih (assignColorsStep acc n) k c ?_
    by_cases hs : n.sbom = ""
    · rw [assignColorsStep_sbomEmpty hs]; exact h
    · by_cases hl : lookupA acc.1 n.sbom = none
      · rw [assignColorsStep_fresh hs hl]
        exact lookupA_append_left h _
      · rw [assignColorsStep_seen hs hl]; exact h

theorem foldl_assign_flatten (payloads : List (List Node)) :
    ∀ acc : List (String × String) × List String,
      payloads.foldl (fun a p => assignColorsNodes a p) acc
        = assignColorsNodes acc payloads.flatten := by
  induction payloads with
  | nil => intro acc; rfl
  | cons p ps ih =>
    intro acc
    show ps.foldl _ (assignColorsNodes acc p) = _
    rw [ih (assignColorsNodes acc p)]
    unfold assignColorsNodes
    rw [List.flatten_cons, List.foldl_append]

/-- Claim C5 as amended: in the palette-based revision of `updateData`
(`part_000`/`part_001`), across any session of ingestion calls the color
map keys are exactly the distinct truthy SBOM identifiers in encounter
order, the Nth distinct identifier holds palette color `N mod paletteSize`,
and a color once assigned survives any further ingestion unchanged.  (The
`graph.js` revision instead assigns by position inside each payload's
`sboms` array — see the counterexample.) -/
theorem sbom_color_assignment_stable :
    (∀ payloads : List (List Node),
      (colorsAfterSeq payloads).map Prod.fst
        = firstDedup ((payloads.flatten.map (·.sbom)).filter (fun s => s ≠ "")))
    ∧ (∀ payloads : List (List Node), ∀ i,
        i < (colorsAfterSeq payloads).length →
        ((colorsAfterSeq payloads).getD i ("", "")).2
          = colorPalette.getD (i % colorPalette.length) "")
    ∧ (∀ ps more : List (List Node), ∀ k c : String,
        lookupA (colorsAfterSeq ps) k = some c →
        lookupA (colorsAfterSeq (ps ++ more)) k = some c) := by
  refine ⟨?_, ?_, ?_⟩
  · intro payloads
    show ((payloads.foldl (fun a p => assignColorsNodes a p) ([], [])).1.map Prod.fst) = _
    rw [foldl_assign_flatten payloads ([], []), assignColorsNodes_fst]
    rfl
  · intro payloads i h
    have heq : colorsAfterSeq payloads
        = (assignColorsNodes ([], []) payloads.flatten).1 := by
      show (payloads.foldl (fun a p => assignColorsNodes a p) ([], [])).1 = _
      rw [foldl_assign_flatten payloads ([], [])]
    rw [heq] at h ⊢
    rw [List.getD_eq_get _ _ h]
    exact assignColorsNodes_snd payloads.flatten ([], [])
      (fun i h => by cases h) i h
  · intro ps more k c h
    show lookupA ((ps ++ more).foldl (fun a p => assignColorsNodes a p) ([], [])).1 k
        = some c
    rw [List.foldl_append, foldl_assign_flatten more]
    exact assignColorsNodes_lookup_mono more.flatten _ k c h

/-- Claim C5 counterexample: in the `graph.js` revision, color index is the
position inside the current payload's `sboms` array, not the
distinct-encounter count.  After ingesting metadata `[A, B]` and then
`[C, B]`, `C` is the third distinct SBOM identifier encountered (index 2)
but receives `d3.schemeCategory10[0]`, not palette color `2 mod 10`. -/
theorem metaColors_not_encounter_indexed :
    (assignColorsMeta (assignColorsMeta []
        [{ id := "A" }, { id := "B" }]) [{ id := "C" }, { id := "B" }]).map Prod.fst
      = ["A", "B", "C"]
    ∧ lookupA (assignColorsMeta (assignColorsMeta []
        [{ id := "A" }, { id := "B" }]) [{ id := "C" }, { id := "B" }]) "C"
      = some "#1f77b4"
    ∧ d3SchemeCategory10.getD (2 % 10) "" = "#2ca02c"
    ∧ ("#1f77b4" : String) ≠ "#2ca02c" := by
  decide

/-- Claim C5 amended witness at a concrete two-call session. -/
theorem sbom_color_assignment_stable_witness :
    ((colorsAfterSeq seqPayloads).getD 1 ("", "")).2
      = colorPalette.getD (1 % colorPalette.length) "" :=
  sbom_color_assignment_stable.2.1 seqPayloads 1 (by decide)

/-- Claim C6 as amended: the visibility rule implemented by
`filterVisibleSboms`.  A link is visible iff the set is empty or contains
its SBOM.  A node without a `shared_in` list is visible iff the set is
empty or contains its SBOM.  A node with a `shared_in` list is judged on
that list alone — its own `sbom` field is ignored — and is visible iff some
entry of the list is in the set, or the set is empty and the list is
nonempty (so a node with an empty `shared_in` list is hidden even under the
empty-set sentinel). -/
theorem visibility_filter_exact (v : List String) (n : Node) (l : Link) :
    (n.shared_in = none →
      (nodeVisible v n = true ↔ (v = [] ∨ n.sbom ∈ v)))
    ∧ (∀ sh, n.shared_in = some sh →
      (nodeVisible v n = true ↔ ∃ i ∈ sh, (v = [] ∨ i ∈ v)))
    ∧ (linkVisible v l = true ↔ (v = [] ∨ l.sbom ∈ v)) := by
  refine ⟨?_, ?_, ?_⟩
  · intro h
    unfold nodeVisible
    rw [h]
    simp [List.isEmpty_iff]
  · intro sh h
    unfold nodeVisible
    rw [h]
    simp [List.isEmpty_iff]
  · unfold linkVisible
    simp [List.isEmpty_iff]

/-- Claim C6 counterexample: `filterVisibleSboms` does not consult a
node's own `sbom` once `shared_in` is present.  `visNode` has `sbom = "Y"`
and `shared_in = ["X"]`; with visibility set `{Y}` the claim says it is
visible (its SBOM is a member) but the code hides it.  `visNodeEmptyShared`
has a present-but-empty `shared_in`; with the empty set the claim says
every node is visible but the code hides it. -/
theorem visibility_counterexample :
    nodeVisible ["Y"] visNode = false
    ∧ visNode.sbom ∈ ["Y"]
    ∧ nodeVisible [] visNodeEmptyShared = false := by
  decide

/-- Claim C6 amended witness at a concrete plain node. -/
theorem visibility_filter_exact_witness :
    nodeVisible ["A"] visNodePlain = true
      ↔ ((["A"] : List String) = [] ∨ visNodePlain.sbom ∈ ["A"]) :=
  (visibility_filter_exact ["A"] visNodePlain expLinkAB).1 rfl

/-- Claim C7: whenever the `_createClusteredGraph` body raises, the `catch`
handler exposes the untouched original node/link arrays as the working
set. -/
theorem cluster_failure_fallback (origN : List (Option Node))
    (origL : List (Option Link)) (th : Nat)
    (h : createClusteredGraphTry origN origL th = Except.error ()) :
    createClusteredGraphCatch origN origL th = (origN, origL) := by
  unfold createClusteredGraphCatch
  rw [h]

/-- Claim C7 witness: a null entry in the original node array makes the
body raise and the fallback exposes the original arrays. -/
theorem cluster_failure_fallback_witness :
    createClusteredGraphCatch [none] [] 30 = ([none], []) :=
  cluster_failure_fallback [none] [] 30 (by rfl)

/-- Claim C8: `_formatFileSize` uses 1024-based units `Bytes/KB/MB/GB`
with two decimal places (trailing zeros stripped) and returns `"0 Bytes"`
for zero; in particular `_formatFileSize 0 = "0 Bytes"` and
`_formatFileSize 1536 = "1.5 KB"`. -/
theorem formatFileSize_binary_units :
    formatFileSize 0 = "0 Bytes"
    ∧ formatFileSize 1536 = "1.5 KB"
    ∧ formatFileSize 123 = "123 Bytes"
    ∧ formatFileSize 1023 = "1023 Bytes"
    ∧ formatFileSize 1048576 = "1 MB"
    ∧ formatFileSize 10485760 = "10 MB"
    ∧ formatFileSize 2684354560 = "2.5 GB" := by
  decide

theorem splitOnChar_append_of_not_mem (c : Char) (l₂ : List Char) :
    ∀ l₁ : List Char, c ∉ l₁ →
      splitOnChar c (l₁ ++ c :: l₂) = l₁ :: splitOnChar c l₂ := by
  intro l₁
  induction l₁ with
  | nil => intro _; simp [splitOnChar]
  | cons x xs ih =>
    intro h
    have hx : ¬ x = c := fun he => h (he ▸ List.mem_cons_self _ _)
    have hih := ih (fun hc => h (List.mem_cons_of_mem _ hc))
    simp only [List.cons_append, splitOnChar, if_neg hx, List.append_eq]
    rw [hih]

theorem clusterSbomOf_mkClusterId (s ty : String) (hs : ¬ '-' ∈ s.data) :
    clusterSbomOf (mkClusterId s ty) = s := by
  unfold clusterSbomOf
  have hdata : (mkClusterId s ty).data
      = ['c', 'l', 'u', 's', 't', 'e', 'r'] ++ '-' :: (s.data ++ '-' :: ty.data) := by
    show ("cluster-" ++ s ++ "-" ++ ty).data = _
    rw [String.data_append, String.data_append, String.data_append]
    show (['c', 'l', 'u', 's', 't', 'e', 'r', '-'] ++ s.data) ++ ['-'] ++ ty.data = _
    simp
  rw [hdata, splitOnChar_append_of_not_mem _ _ _ (by decide),
      splitOnChar_append_of_not_mem _ _ _ hs]
  rfl

theorem clusterLinkFor_crossSbom (origN : List Node) (cid csb : String)
    (bucket : List Node) (impIds : List String) (l₀ : Link)
    (hcid : ¬ cid ∈ origN.map (·.id)) :
    ∀ l ∈ clusterLinkFor origN cid csb bucket impIds l₀,
      l.type = "cross-sbom" →
      (l.source = EndRef.str cid → l.sourceSbom = some csb)
      ∧ (l.target = EndRef.str cid → l.targetSbom = some csb) := by
  intro l hl htype
  unfold clusterLinkFor at hl
  revert hl
  cases resolveEnd l₀.source with
  | none => intro hl; simp at hl
  | some a =>
    cases resolveEnd l₀.target with
    | none => intro hl; simp at hl
    | some b =>
      intro hl
      dsimp only at hl
      by_cases hab : a = "" ∨ b = ""
      · rw [if_pos hab] at hl; simp at hl
      rw [if_neg hab] at hl
      by_cases h1 : (bucket.any (fun n => n.id = a) && !bucket.any (fun n => n.id = b)) = true
      · rw [if_pos h1] at hl
        by_cases himp : b ∈ impIds
        · rw [if_pos himp] at hl
          rw [List.mem_singleton.mp hl] at htype
          simp at htype
        rw [if_neg himp] at hl
        revert hl
        cases hf : findNode origN b with
        | none => intro hl; simp at hl
        | some tn =>
          intro hl
          dsimp only at hl
          by_cases hsb : tn.sbom ≠ csb
          · rw [if_pos hsb] at hl
            rw [List.mem_singleton.mp hl]
            refine ⟨fun _ => rfl, fun hT => ?_⟩
            have hb : b = cid := EndRef.str.inj (by exact hT)
            have hbmem : b ∈ origN.map (·.id) := by
              have hnode := List.mem_of_find?_eq_some hf
              have hpb := List.find?_some hf
              exact (of_decide_eq_true hpb) ▸ List.mem_map_of_mem (·.id) hnode
            exact absurd (hb ▸ hbmem) hcid
          · rw [if_neg hsb] at hl; simp at hl
      rw [if_neg h1] at hl
      by_cases h2 : (bucket.any (fun n => n.id = b) && !bucket.any (fun n => n.id = a)) = true
      · rw [if_pos h2] at hl
        by_cases himp : a ∈ impIds
        · rw [if_pos himp] at hl
          rw [List.mem_singleton.mp hl] at htype
          simp at htype
        rw [if_neg himp] at hl
        revert hl
        cases hf : findNode origN a with
        | none => intro hl; simp at hl
        | some sn =>
          intro hl
          dsimp only at hl
          by_cases hsb : sn.sbom ≠ csb
          · rw [if_pos hsb] at hl
            rw [List.mem_singleton.mp hl]
            refine ⟨fun hS => ?_, fun _ => rfl⟩
            have ha : a = cid := EndRef.str.inj (by exact hS)
            have hamem : a ∈ origN.map (·.id) := by
              have hnode := List.mem_of_find?_eq_some hf
              have hpa := List.find?_some hf
              exact (of_decide_eq_true hpa) ▸ List.mem_map_of_mem (·.id) hnode
            exact absurd (ha ▸ hamem) hcid
          · rw [if_neg hsb] at hl; simp at hl
      · rw [if_neg h2] at hl; simp at hl

/-- Claim C9 as amended: `_createClusterLinks` recovers the SBOM identifier
of a cluster as the second hyphen-separated segment of the cluster id.  For
an SBOM identifier containing no hyphen this equals the owning identifier,
and every emitted `cross-sbom` link records it on the cluster endpoint
(`sourceSbom` when the cluster is the source, `targetSbom` when it is the
target); for hyphenated identifiers the recovered segment differs from the
owning identifier — see the counterexample.  The second hypothesis rules
out an original node carrying the synthetic cluster identifier. -/
theorem crossSbom_cluster_tag (origN : List Node) (origL : List Link)
    (s ty : String) (bucket imp : List Node)
    (hs : ¬ '-' ∈ s.data)
    (hid : ¬ mkClusterId s ty ∈ origN.map (·.id)) :
    clusterSbomOf (mkClusterId s ty) = s
    ∧ ∀ l ∈ createClusterLinks origN origL (mkClusterId s ty) bucket imp,
        l.type = "cross-sbom" →
        (l.source = EndRef.str (mkClusterId s ty) → l.sourceSbom = some s)
        ∧ (l.target = EndRef.str (mkClusterId s ty) → l.targetSbom = some s) := by
  have hsb := clusterSbomOf_mkClusterId s ty hs
  refine ⟨hsb, ?_⟩
  intro l hl htype
  obtain ⟨l₀, -, hmem⟩ := List.mem_flatMap.mp hl
  have hres := clusterLinkFor_crossSbom origN (mkClusterId s ty)
    (clusterSbomOf (mkClusterId s ty)) bucket (imp.map (·.id)) l₀ hid l hmem htype
  rw [hsb] at hres
  exact hres

/-- Claim C9 counterexample: clustering the hyphenated SBOM `"b-1"`
produces cluster nodes owned by `"b-1"` whose emitted `cross-sbom` links
record `"b"` — the second segment of `"cluster-b-1-library"` — on the
cluster endpoint, and `"b" ≠ "b-1"`.  (The hyphen also makes same-SBOM
links be misclassified as `cross-sbom`.) -/
theorem crossSbom_cluster_tag_counterexample :
    ((createClusteredGraphCore hyphenNodes hyphenLinks 30).1.filter
        (fun n => n.isCluster)).map (fun n => (n.id, n.sbom))
      = [("cluster-b-1-library", "b-1"), ("cluster-b-1-application", "b-1")]
    ∧ ((createClusteredGraphCore hyphenNodes hyphenLinks 30).2.filter
        (fun l => l.type = "cross-sbom")).map
          (fun l => (l.sourceSbom, l.targetSbom))
      = [(some "b", some "b-1"), (some "b-1", some "b")]
    ∧ ("b" : String) ≠ "b-1" := by
  decide

/-- Claim C9 amended witness at the hyphen-free SBOM `"sb1"`. -/
theorem crossSbom_cluster_tag_witness :
    crossRecordPlain.sourceSbom = some "sb1" :=
  ((crossSbom_cluster_tag plainNodes plainLinks "sb1" "library" plainBucket []
      (by decide) (by decide)).2 crossRecordPlain (by decide) (by decide)).1
    (by decide)

/-- Claim C1 as amended: the validating revision of `updateData`
(`part_000`/`part_001`) produces a working node set without duplicate
identifiers in which every kept node is the first payload occurrence of its
identifier, and every kept link has bare-string endpoints drawn from the
surviving node identifier set.  (The `graph.js` revision copies the payload
nodes without deduplication — see the counterexample.) -/
theorem ingest_dedup_and_link_integrity (data : Payload) :
    ((ingestV0 data).1.map (·.id)).Nodup
    ∧ (∀ n ∈ (ingestV0 data).1,
        data.nodes.find? (fun m => m.id = n.id) = some n)
    ∧ (∀ l ∈ (ingestV0 data).2, ∃ s t,
        l.source = EndRef.str s ∧ l.target = EndRef.str t ∧
        s ∈ (ingestV0 data).1.map (·.id) ∧ t ∈ (ingestV0 data).1.map (·.id)) := by
  refine ⟨dedupNodesAux_nodup data.nodes [], ?_, ?_⟩
  · intro n hn
    exact (dedupNodesAux_sound data.nodes [] n hn).2.2
  · intro l hl
    exact mem_validateLinks hl

/-- Claim C1 counterexample: the `graph.js` revision of `updateData` keeps
both payload nodes carrying the duplicated identifier `"x"`, so its working
node set does contain two nodes with the same identifier. -/
theorem updateData_keeps_duplicate_ids :
    (updateDataJs true 30 dupPayload).1.map (·.id) = ["x", "x"]
    ∧ ¬ ((updateDataJs true 30 dupPayload).1.map (·.id)).Nodup := by
  decide

/-- Claim C1 amended witness at the concrete duplicated payload. -/
theorem ingest_dedup_and_link_integrity_witness :
    dupPayload.nodes.find? (fun m => m.id = dupNodeFirst.id) = some dupNodeFirst :=
  (ingest_dedup_and_link_integrity dupPayload).2.1 dupNodeFirst (by decide)

end Visfactant
